import Mathlib

/-!
Formal model of the SavorIQ guest-intelligence core.  The frontend components
under src/frontend are embedded directly from their JavaScript sources; the
backend analytics engine (bucket classifier, sentiment scorer, review
pipeline, pulse aggregator, product ranker) is documented in the repository
but its code is not part of the sources, so those definitions are modelled
from the specification and are marked as such.  Scores, prices and star
ratings are modelled as rationals.
-/

/-- The three sentiment topics tracked by the system. -/
inductive Bucket where
  | food
  | drink
  | ambiance
  deriving DecidableEq

/-- Modelled from the spec: character-level matching used by the Bucket
Classifier of the backend, whose code is absent from the repository sources.
Decides whether the pattern occurs at the start of the text. -/
def startsWithChars : List Char → List Char → Bool
  | [], _ => true
  | _ :: _, [] => false
  | a :: as, b :: bs => a == b && startsWithChars as bs

/-- Modelled from the spec: occurrence of a keyword anywhere in the text, the
substring match used by the Bucket Classifier of the backend. -/
def occursInChars (pat : List Char) : List Char → Bool
  | [] => startsWithChars pat []
  | b :: bs => startsWithChars pat (b :: bs) || occursInChars pat bs

/-- Modelled from the spec: case-insensitive normalisation of review text
before keyword matching. -/
def normChars (t : String) : List Char := t.data.map Char.toLower

/-- Modelled from the spec: the fixed, case-insensitive keyword list per
bucket, taken from the Deep Sentiment Skill table of the technical spec. -/
def bucketKeywords : Bucket → List String
  | Bucket.food =>
    ["food", "dish", "meal", "taste", "flavor", "menu", "chef", "pasta", "burger", "dessert"]
  | Bucket.drink =>
    ["coffee", "latte", "espresso", "tea", "beer", "wine", "cocktail", "juice", "barista"]
  | Bucket.ambiance =>
    ["atmosphere", "decor", "vibe", "music", "lighting", "cozy", "seating", "patio"]

/-- Modelled from the spec: a bucket is selected when at least one of its
keywords occurs in the lowercased review text. -/
def bucketMentioned (t : String) (bk : Bucket) : Bool :=
  (bucketKeywords bk).any (fun kw => occursInChars kw.data (normChars t))

/-- Modelled from the spec: the Bucket Classifier, mapping raw review text to
the subset of buckets it discusses (section 4.1 of the spec); the backend code
implementing it is absent from the repository sources. -/
def classify (t : String) : List Bucket :=
  [Bucket.food, Bucket.drink, Bucket.ambiance].filter (fun bk => bucketMentioned t bk)

theorem startsWithChars_head_mem {c : Char} {tl hay : List Char}
    (h : startsWithChars (c :: tl) hay = true) : c ∈ hay := by
  cases hay with
  | nil => simp [startsWithChars] at h
  | cons b bs =>
    simp only [startsWithChars, Bool.and_eq_true, beq_iff_eq] at h
    exact h.1 ▸ List.mem_cons_self b bs

theorem occursInChars_head_mem {c : Char} {tl : List Char} :
    ∀ {hay : List Char}, occursInChars (c :: tl) hay = true → c ∈ hay := by
  intro hay
  induction hay with
  | nil => intro h; simp [occursInChars, startsWithChars] at h
  | cons b bs ih =>
    intro h
    simp only [occursInChars, Bool.or_eq_true] at h
    rcases h with h | h
    · exact startsWithChars_head_mem h
    · exact List.mem_cons_of_mem b (ih h)

theorem toLower_of_whitespace {c : Char} (h : c.isWhitespace = true) :
    Char.toLower c = c := by
  simp only [Char.isWhitespace, Bool.or_eq_true, decide_eq_true_eq] at h
  rcases h with ((rfl | rfl) | rfl) | rfl <;> decide

theorem mem_normChars_whitespace {t : String}
    (hws : t.data.all Char.isWhitespace = true) :
    ∀ c ∈ normChars t, c.isWhitespace = true := by
  intro c hc
  simp only [normChars, List.mem_map] at hc
  obtain ⟨c0, hc0, rfl⟩ := hc
  have h := List.all_eq_true.mp hws c0 hc0
  rw [toLower_of_whitespace h]
  exact h

theorem no_keyword_hit_of_whitespace {t : String}
    (hws : t.data.all Char.isWhitespace = true) :
    ∀ cs : List Char, cs.head?.any (fun c => !c.isWhitespace) = true →
      occursInChars cs (normChars t) = false := by
  intro cs hk
  cases cs with
  | nil => simp [Option.any] at hk
  | cons c tl =>
    simp only [List.head?, Option.any, Bool.not_eq_true'] at hk
    cases hocc : occursInChars (c :: tl) (normChars t) with
    | false => rfl
    | true =>
      have hcw := mem_normChars_whitespace hws c (occursInChars_head_mem hocc)
      rw [hcw] at hk
      simp at hk

theorem classify_whitespace {t : String}
    (hws : t.data.all Char.isWhitespace = true) : classify t = [] := by
  have hbk : ∀ bk : Bucket, bucketMentioned t bk = false := by
    intro bk
    rw [bucketMentioned, List.any_eq_false]
    intro kw hkw
    rw [Bool.not_eq_true]
    refine no_keyword_hit_of_whitespace hws kw.data ?_
    cases bk <;> (simp only [bucketKeywords] at hkw; fin_cases hkw <;> decide)
  simp [classify, hbk]

theorem classify_nodup (t : String) : (classify t).Nodup :=
  List.Nodup.filter _ (by decide)

/-- An entry of a sentiment-scoring result: one bucket with its score and an
optional short summary.  The same shape is used for the response of the
external AI text-analysis backend. -/
structure ScoreEntry where
  bucket : Bucket
  score : ℚ
  summary : Option String
  deriving DecidableEq

/-- Modelled from the spec: the failure modes of the external AI text-analysis
backend (timeout, malformed response, auth failure). -/
inductive BackendError where
  | timeout
  | malformedResponse
  | authFailure
  deriving DecidableEq

/-- Modelled from the spec: the pluggable AI text-analysis backend, a black
box taking the review text, the star rating and the requested buckets, and
either answering with one entry per bucket or failing. -/
def AnalyzerBackend : Type :=
  String → ℚ → List Bucket → Except BackendError (List ScoreEntry)

/-- Modelled from the spec: clamping of every produced score to the closed
interval from -1 to 1. -/
def clamp (x : ℚ) : ℚ := max (-1) (min 1 x)

theorem clamp_bounds (x : ℚ) : -1 ≤ clamp x ∧ clamp x ≤ 1 :=
  ⟨le_max_left _ _, max_le (by norm_num) (min_le_left _ _)⟩

theorem clamp_mono {x y : ℚ} (h : x ≤ y) : clamp x ≤ clamp y :=
  max_le_max le_rfl (min_le_min le_rfl h)

/-- Modelled from the spec: the fixed table of positive polarity keywords used
by the heuristic fallback scorer of the backend, whose code is absent from the
repository sources. -/
def positiveWords : List String :=
  ["amazing", "great", "delicious", "excellent", "love", "cozy", "friendly", "perfect"]

/-- Modelled from the spec: the fixed table of negative polarity keywords used
by the heuristic fallback scorer. -/
def negativeWords : List String :=
  ["bad", "terrible", "awful", "bland", "rude", "slow", "dirty", "cold"]

/-- Modelled from the spec: number of table keywords occurring in the
lowercased review text. -/
def countHits (table : List String) (t : String) : Nat :=
  table.countP (fun w => occursInChars w.data (normChars t))

/-- Modelled from the spec: the star rating mapped linearly onto the interval
from -1 to 1 (rating 0 to -1, rating 5 to +1). -/
def ratingSignal (r : ℚ) : ℚ := r * (2 / 5) - 1

/-- Modelled from the spec: raw keyword polarity of the text, the difference
of positive and negative hits normalised by the hit count; none when no
polarity keyword is found. -/
def textPolarity (t : String) : Option ℚ :=
  let pos := countHits positiveWords t
  let neg := countHits negativeWords t
  if pos + neg = 0 then none
  else some (((pos : ℚ) - (neg : ℚ)) / ((pos : ℚ) + (neg : ℚ)))

/-- Modelled from the spec: the blended heuristic score for one bucket, the
equal-weight average of keyword polarity and rating signal, or the rating
signal alone when no polarity keyword matches; always clamped. -/
def fallbackBucketScore (t : String) (r : ℚ) : ℚ :=
  match textPolarity t with
  | none => clamp (ratingSignal r)
  | some pol => clamp ((pol + ratingSignal r) / 2)

/-- Modelled from the spec: the heuristic fallback path of the Sentiment
Scorer, producing one entry per requested bucket with an omitted summary. -/
def fallbackScore (t : String) (r : ℚ) (bs : List Bucket) : List ScoreEntry :=
  bs.map (fun bk => { bucket := bk, score := fallbackBucketScore t r, summary := none })

/-- Modelled from the spec: reading the backend response, one entry per
requested bucket, each score clamped; none when a requested bucket is missing
from the response (a malformed response). -/
def collectResponse (resp : List ScoreEntry) : List Bucket → Option (List ScoreEntry)
  | [] => some []
  | bk :: rest =>
    match resp.find? (fun e => e.bucket == bk), collectResponse resp rest with
    | some e, some es => some ({ bucket := bk, score := clamp e.score, summary := e.summary } :: es)
    | _, _ => none

/-- Modelled from the spec: the Sentiment Scorer (section 4.2 of the spec),
whose backend code is absent from the repository sources.  With a configured
backend it delegates and clamps the returned scores; without one, on any
backend error, or on a malformed response it uses the deterministic heuristic
fallback.  It is a total function: no failure reaches the caller. -/
def score (a : Option AnalyzerBackend) (t : String) (r : ℚ) (bs : List Bucket) :
    List ScoreEntry :=
  match a with
  | none => fallbackScore t r bs
  | some b =>
    match b t r bs with
    | Except.error _ => fallbackScore t r bs
    | Except.ok resp =>
      match collectResponse resp bs with
      | none => fallbackScore t r bs
      | some es => es

theorem fallbackBucketScore_bounds (t : String) (r : ℚ) :
    -1 ≤ fallbackBucketScore t r ∧ fallbackBucketScore t r ≤ 1 := by
  unfold fallbackBucketScore
  cases textPolarity t <;> exact clamp_bounds _

theorem fallbackScore_map_bucket (t : String) (r : ℚ) (bs : List Bucket) :
    (fallbackScore t r bs).map ScoreEntry.bucket = bs := by
  unfold fallbackScore
  induction bs with
  | nil => rfl
  | cons bk rest ih => simpa using ih

theorem fallbackScore_bounds (t : String) (r : ℚ) (bs : List Bucket) :
    ∀ e ∈ fallbackScore t r bs, -1 ≤ e.score ∧ e.score ≤ 1 := by
  intro e he
  simp only [fallbackScore, List.mem_map] at he
  obtain ⟨bk, _, rfl⟩ := he
  exact fallbackBucketScore_bounds t r

theorem collectResponse_map_bucket (resp : List ScoreEntry) :
    ∀ (bs : List Bucket) (es : List ScoreEntry),
      collectResponse resp bs = some es → es.map ScoreEntry.bucket = bs := by
  intro bs
  induction bs with
  | nil => intro es h; simp only [collectResponse, Option.some.injEq] at h; simp [← h]
  | cons bk rest ih =>
    intro es h
    simp only [collectResponse] at h
    cases hf : resp.find? (fun e => e.bucket == bk) with
    | none => rw [hf] at h; cases h
    | some e =>
      rw [hf] at h
      cases hc : collectResponse resp rest with
      | none => rw [hc] at h; cases h
      | some es0 =>
        rw [hc] at h
        cases h
        simp [ih es0 hc]

theorem collectResponse_bounds (resp : List ScoreEntry) :
    ∀ (bs : List Bucket) (es : List ScoreEntry),
      collectResponse resp bs = some es → ∀ e ∈ es, -1 ≤ e.score ∧ e.score ≤ 1 := by
  intro bs
  induction bs with
  | nil => intro es h; simp only [collectResponse, Option.some.injEq] at h; simp [← h]
  | cons bk rest ih =>
    intro es h
    simp only [collectResponse] at h
    cases hf : resp.find? (fun e => e.bucket == bk) with
    | none => rw [hf] at h; cases h
    | some e0 =>
      rw [hf] at h
      cases hc : collectResponse resp rest with
      | none => rw [hc] at h; cases h
      | some es0 =>
        rw [hc] at h
        cases h
        intro e he
        rcases List.mem_cons.mp he with rfl | hmem
        · exact clamp_bounds _
        · exact ih es0 hc e hmem

theorem score_map_bucket (a : Option AnalyzerBackend) (t : String) (r : ℚ)
    (bs : List Bucket) : (score a t r bs).map ScoreEntry.bucket = bs := by
  cases a with
  | none => exact fallbackScore_map_bucket t r bs
  | some b =>
    cases hb : b t r bs with
    | error e =>
      simp only [score, hb]
      exact fallbackScore_map_bucket t r bs
    | ok resp =>
      cases hc : collectResponse resp bs with
      | none =>
        simp only [score, hb, hc]
        exact fallbackScore_map_bucket t r bs
      | some es =>
        simp only [score, hb, hc]
        exact collectResponse_map_bucket resp bs es hc

theorem score_bounds (a : Option AnalyzerBackend) (t : String) (r : ℚ)
    (bs : List Bucket) : ∀ e ∈ score a t r bs, -1 ≤ e.score ∧ e.score ≤ 1 := by
  cases a with
  | none => exact fallbackScore_bounds t r bs
  | some b =>
    cases hb : b t r bs with
    | error e =>
      simp only [score, hb]
      exact fallbackScore_bounds t r bs
    | ok resp =>
      cases hc : collectResponse resp bs with
      | none =>
        simp only [score, hb, hc]
        exact fallbackScore_bounds t r bs
      | some es =>
        simp only [score, hb, hc]
        exact collectResponse_bounds resp bs es hc

/-- The review source platform, from the data model of the spec. -/
inductive Platform where
  | yelp
  | google
  deriving DecidableEq

/-- A guest record, reduced to the attributes the ingestion pipeline touches
(identity, name, optional email). -/
structure Guest where
  id : Nat
  name : String
  email : Option String
  deriving DecidableEq

/-- A persisted review row, from the data model of the spec (timestamps are
abstract natural numbers; the ingestion timestamp is elided, no claim
mentions it). -/
structure Review where
  id : Nat
  guestId : Nat
  platform : Platform
  platformReviewId : Option String
  rating : ℚ
  content : String
  reviewedAt : Nat
  deriving DecidableEq

/-- A persisted sentiment-score row, from the data model of the spec. -/
structure SentimentScore where
  reviewId : Nat
  bucket : Bucket
  score : ℚ
  summary : Option String
  deriving DecidableEq

/-- The canonical review-ingest input, after platform-specific adapters have
normalised the payload. -/
structure ReviewPayload where
  platform : Platform
  platformReviewId : Option String
  guestName : String
  guestEmail : Option String
  rating : ℚ
  text : String
  reviewedAt : Nat
  deriving DecidableEq

/-- The persistent store shared by all operations, with counters supplying
fresh primary keys. -/
structure Store where
  guests : List Guest
  reviews : List Review
  scores : List SentimentScore
  nextGuestId : Nat
  nextReviewId : Nat
  deriving DecidableEq

/-- Outcome of one review ingest: a freshly created review, or the untouched
original on an idempotent re-ingest (DuplicateIgnored, a success, not an
error). -/
inductive IngestResult where
  | created (r : Review)
  | duplicateIgnored (r : Review)
  deriving DecidableEq

/-- Modelled from the spec: guest resolution of the Review Sentiment Pipeline
(step 2 of section 4.3), whose backend code is absent from the repository
sources: match by email case-insensitively when provided, else by exact name,
else create a new guest.  Returns the guest list, the next fresh guest id and
the resolved guest id. -/
def resolveGuest (guests : List Guest) (nextGuestId : Nat) (p : ReviewPayload) :
    List Guest × Nat × Nat :=
  let fresh : Guest := { id := nextGuestId, name := p.guestName, email := p.guestEmail }
  match p.guestEmail with
  | some e =>
    match guests.find? (fun g => decide (g.email.map String.toLower = some e.toLower)) with
    | some g => (guests, nextGuestId, g.id)
    | none => (fresh :: guests, nextGuestId + 1, nextGuestId)
  | none =>
    match guests.find? (fun g => decide (g.name = p.guestName)) with
    | some g => (guests, nextGuestId, g.id)
    | none => (fresh :: guests, nextGuestId + 1, nextGuestId)

/-- Modelled from the spec: lookup of an existing review by its external
platform review id, the dedup key. -/
def findReviewByPid (rs : List Review) (pid : String) : Option Review :=
  rs.find? (fun r => decide (r.platformReviewId = some pid))

/-- Modelled from the spec: step 1 of the Review Sentiment Pipeline, the
idempotence check against the incoming external id. -/
def lookupExisting (s : Store) (p : ReviewPayload) : Option Review :=
  match p.platformReviewId with
  | some pid => findReviewByPid s.reviews pid
  | none => none

/-- Modelled from the spec: the create path of the Review Sentiment Pipeline
(steps 2 to 4 of section 4.3), whose backend code is absent from the
repository sources: resolve the guest, persist the review, classify the text
and, when the bucket set is non-empty, run the Scorer and persist one
SentimentScore per returned bucket.  The guest visit-timestamp update of step
5 is elided, no claim mentions it. -/
def ingestCreate (a : Option AnalyzerBackend) (s : Store) (p : ReviewPayload) :
    Store × IngestResult :=
  let g := resolveGuest s.guests s.nextGuestId p
  let rid := s.nextReviewId
  let rev : Review :=
    { id := rid, guestId := g.2.2, platform := p.platform,
      platformReviewId := p.platformReviewId, rating := p.rating,
      content := p.text, reviewedAt := p.reviewedAt }
  let buckets := classify p.text
  let entries := if buckets.isEmpty then [] else score a p.text p.rating buckets
  ({ guests := g.1, nextGuestId := g.2.1,
     reviews := rev :: s.reviews,
     scores := entries.map
       (fun e => { reviewId := rid, bucket := e.bucket, score := e.score,
                   summary := e.summary }) ++ s.scores,
     nextReviewId := rid + 1 },
   IngestResult.created rev)

/-- Modelled from the spec: the Review Sentiment Pipeline entry point
(section 4.3), whose backend code is absent from the repository sources: an
existing platform review id short-circuits to the idempotent return, anything
else takes the create path. -/
def ingest (a : Option AnalyzerBackend) (s : Store) (p : ReviewPayload) :
    Store × IngestResult :=
  match lookupExisting s p with
  | some r => (s, IngestResult.duplicateIgnored r)
  | none => ingestCreate a s p

theorem lookupExisting_none {s : Store} {p : ReviewPayload} {pid : String}
    (hpid : p.platformReviewId = some pid)
    (hnew : findReviewByPid s.reviews pid = none) : lookupExisting s p = none := by
  simp [lookupExisting, hpid, hnew]

theorem ingest_of_lookup_some {a : Option AnalyzerBackend} {s : Store}
    {p : ReviewPayload} {r : Review} (h : lookupExisting s p = some r) :
    ingest a s p = (s, IngestResult.duplicateIgnored r) := by
  simp [ingest, h]

/-- C1.  Ingesting a review payload whose platform review id is not yet in the
store creates exactly one review carrying that id; re-ingesting the same
payload is a no-op: the store is unchanged in every component, no new Review
or SentimentScore row appears, and the call reports success as
DuplicateIgnored with the original review. -/
theorem ingest_idempotent_per_platform_review_id
    (a : Option AnalyzerBackend) (s : Store) (p : ReviewPayload) (pid : String)
    (hpid : p.platformReviewId = some pid)
    (hnew : findReviewByPid s.reviews pid = none) :
    ∃ rev,
      (ingest a s p).2 = IngestResult.created rev ∧
      rev.platformReviewId = some pid ∧
      ingest a (ingest a s p).1 p = ((ingest a s p).1, IngestResult.duplicateIgnored rev) ∧
      ((ingest a s p).1.reviews.countP (fun r => decide (r.platformReviewId = some pid))) = 1 ∧
      (ingest a (ingest a s p).1 p).1.scores = (ingest a s p).1.scores := by
  have hlook : lookupExisting s p = none := lookupExisting_none hpid hnew
  have h1 : ingest a s p = ingestCreate a s p := by
    simp [ingest, hlook]
  refine ⟨{ id := s.nextReviewId, guestId := (resolveGuest s.guests s.nextGuestId p).2.2,
            platform := p.platform, platformReviewId := p.platformReviewId,
            rating := p.rating, content := p.text, reviewedAt := p.reviewedAt },
          ?_, ?_, ?_, ?_, ?_⟩
  · rw [h1]; rfl
  · exact hpid
  · have hfind :
        findReviewByPid (ingest a s p).1.reviews pid =
          some { id := s.nextReviewId, guestId := (resolveGuest s.guests s.nextGuestId p).2.2,
                 platform := p.platform, platformReviewId := p.platformReviewId,
                 rating := p.rating, content := p.text, reviewedAt := p.reviewedAt } := by
      rw [h1]
      simp [ingestCreate, findReviewByPid, hpid]
    have hlook2 : lookupExisting (ingest a s p).1 p =
        some { id := s.nextReviewId, guestId := (resolveGuest s.guests s.nextGuestId p).2.2,
               platform := p.platform, platformReviewId := p.platformReviewId,
               rating := p.rating, content := p.text, reviewedAt := p.reviewedAt } := by
      simp [lookupExisting, hpid, hfind]
    exact ingest_of_lookup_some hlook2
  · rw [h1]
    have hzero : s.reviews.countP (fun r => decide (r.platformReviewId = some pid)) = 0 := by
      rw [List.countP_eq_zero]
      intro r hr
      have := List.find?_eq_none.mp hnew r hr
      simpa using this
    simp [ingestCreate, List.countP_cons, hpid, hzero]
  · have hfind :
        findReviewByPid (ingest a s p).1.reviews pid =
          some { id := s.nextReviewId, guestId := (resolveGuest s.guests s.nextGuestId p).2.2,
                 platform := p.platform, platformReviewId := p.platformReviewId,
                 rating := p.rating, content := p.text, reviewedAt := p.reviewedAt } := by
      rw [h1]
      simp [ingestCreate, findReviewByPid, hpid]
    have hlook2 : lookupExisting (ingest a s p).1 p =
        some { id := s.nextReviewId, guestId := (resolveGuest s.guests s.nextGuestId p).2.2,
               platform := p.platform, platformReviewId := p.platformReviewId,
               rating := p.rating, content := p.text, reviewedAt := p.reviewedAt } := by
      simp [lookupExisting, hpid, hfind]
    rw [ingest_of_lookup_some hlook2]

/-- A concrete empty store used to instantiate pipeline theorems. -/
def sampleStore : Store :=
  { guests := [], reviews := [], scores := [], nextGuestId := 0, nextReviewId := 0 }

/-- A concrete normalised Yelp review payload used to instantiate pipeline
theorems. -/
def samplePayload : ReviewPayload :=
  { platform := Platform.yelp, platformReviewId := some "yelp-r-001",
    guestName := "Maya Chen", guestEmail := some "maya@email.com", rating := 5,
    text := "The latte was amazing, cozy seating too", reviewedAt := 10 }

/-- Witness for C1: the idempotence theorem applied to a fresh Yelp payload
against the empty store. -/
theorem ingest_idempotent_witness :
    (samplePayload.platformReviewId = some "yelp-r-001" ∧
      findReviewByPid sampleStore.reviews "yelp-r-001" = none) ∧
    (∃ rev,
      (ingest none sampleStore samplePayload).2 = IngestResult.created rev ∧
      rev.platformReviewId = some "yelp-r-001" ∧
      ingest none (ingest none sampleStore samplePayload).1 samplePayload =
        ((ingest none sampleStore samplePayload).1, IngestResult.duplicateIgnored rev) ∧
      ((ingest none sampleStore samplePayload).1.reviews.countP
        (fun r => decide (r.platformReviewId = some "yelp-r-001"))) = 1 ∧
      (ingest none (ingest none sampleStore samplePayload).1 samplePayload).1.scores =
        (ingest none sampleStore samplePayload).1.scores) :=
  ⟨⟨rfl, rfl⟩,
   ingest_idempotent_per_platform_review_id none sampleStore samplePayload "yelp-r-001" rfl rfl⟩

theorem ingestCreate_scores (a : Option AnalyzerBackend) (s : Store) (p : ReviewPayload) :
    (ingestCreate a s p).1.scores =
      ((if (classify p.text).isEmpty then []
        else score a p.text p.rating (classify p.text)).map
        (fun e => { reviewId := s.nextReviewId, bucket := e.bucket, score := e.score,
                    summary := e.summary })) ++ s.scores := rfl

theorem ingestCreate_nextReviewId (a : Option AnalyzerBackend) (s : Store)
    (p : ReviewPayload) : (ingestCreate a s p).1.nextReviewId = s.nextReviewId + 1 := rfl

theorem ingestCreate_reviews (a : Option AnalyzerBackend) (s : Store) (p : ReviewPayload) :
    (ingestCreate a s p).1.reviews =
      { id := s.nextReviewId, guestId := (resolveGuest s.guests s.nextGuestId p).2.2,
        platform := p.platform, platformReviewId := p.platformReviewId,
        rating := p.rating, content := p.text,
        reviewedAt := p.reviewedAt } :: s.reviews := rfl

/-- C2.  The sentiment-score invariants of the data model are preserved by
review ingestion for every analyzer configuration (AI-backed or heuristic):
every persisted score stays in the closed interval from -1 to 1, the pair of
review id and bucket stays unique across score rows, and every score keeps
referencing an already-allocated review id. -/
theorem sentiment_scores_invariant_preserved
    (a : Option AnalyzerBackend) (s : Store) (p : ReviewPayload)
    (hb : ∀ sc ∈ s.scores, -1 ≤ sc.score ∧ sc.score ≤ 1)
    (hu : s.scores.Pairwise (fun x y => ¬(x.reviewId = y.reviewId ∧ x.bucket = y.bucket)))
    (hf : ∀ sc ∈ s.scores, sc.reviewId < s.nextReviewId) :
    (∀ sc ∈ (ingest a s p).1.scores, -1 ≤ sc.score ∧ sc.score ≤ 1) ∧
    ((ingest a s p).1.scores.Pairwise
      (fun x y => ¬(x.reviewId = y.reviewId ∧ x.bucket = y.bucket))) ∧
    (∀ sc ∈ (ingest a s p).1.scores, sc.reviewId < (ingest a s p).1.nextReviewId) := by
  cases hl : lookupExisting s p with
  | some r =>
    rw [ingest_of_lookup_some hl]
    exact ⟨hb, hu, hf⟩
  | none =>
    have h1 : ingest a s p = ingestCreate a s p := by simp [ingest, hl]
    rw [h1, ingestCreate_scores, ingestCreate_nextReviewId]
    have hLb : ∀ e ∈ (if (classify p.text).isEmpty then []
        else score a p.text p.rating (classify p.text)), -1 ≤ e.score ∧ e.score ≤ 1 := by
      intro e he
      split at he
      · simp at he
      · exact score_bounds a p.text p.rating (classify p.text) e he
    have hnd : ((if (classify p.text).isEmpty then []
        else score a p.text p.rating (classify p.text)).map ScoreEntry.bucket).Nodup := by
      split
      · simp
      · rw [score_map_bucket]
        exact classify_nodup p.text
    refine ⟨?_, ?_, ?_⟩
    · intro sc hsc
      rcases List.mem_append.mp hsc with hsc | hsc
      · obtain ⟨e, he, rfl⟩ := List.mem_map.mp hsc
        exact hLb e he
      · exact hb sc hsc
    · rw [List.pairwise_append]
      refine ⟨?_, hu, ?_⟩
      · rw [List.pairwise_map]
        rw [List.Nodup, List.pairwise_map] at hnd
        exact hnd.imp (fun h => fun hcon => h hcon.2)
      · intro x hx y hy
        obtain ⟨e, _, rfl⟩ := List.mem_map.mp hx
        have hy2 := hf y hy
        intro hcon
        rw [← hcon.1] at hy2
        exact lt_irrefl _ hy2
    · intro sc hsc
      rcases List.mem_append.mp hsc with hsc | hsc
      · obtain ⟨e, _, rfl⟩ := List.mem_map.mp hsc
        exact Nat.lt_succ_self _
      · exact Nat.lt_succ_of_lt (hf sc hsc)

/-- Witness for C2: invariant preservation applied to the empty store and a
concrete payload under the heuristic analyzer. -/
theorem sentiment_invariant_witness :
    ((∀ sc ∈ sampleStore.scores, -1 ≤ sc.score ∧ sc.score ≤ 1) ∧
      sampleStore.scores.Pairwise
        (fun x y => ¬(x.reviewId = y.reviewId ∧ x.bucket = y.bucket)) ∧
      (∀ sc ∈ sampleStore.scores, sc.reviewId < sampleStore.nextReviewId)) ∧
    ((∀ sc ∈ (ingest none sampleStore samplePayload).1.scores,
        -1 ≤ sc.score ∧ sc.score ≤ 1) ∧
      ((ingest none sampleStore samplePayload).1.scores.Pairwise
        (fun x y => ¬(x.reviewId = y.reviewId ∧ x.bucket = y.bucket))) ∧
      (∀ sc ∈ (ingest none sampleStore samplePayload).1.scores,
        sc.reviewId < (ingest none sampleStore samplePayload).1.nextReviewId)) :=
  ⟨⟨by simp [sampleStore], List.Pairwise.nil, by simp [sampleStore]⟩,
   sentiment_scores_invariant_preserved none sampleStore samplePayload
     (by simp [sampleStore]) List.Pairwise.nil (by simp [sampleStore])⟩

/-- Modelled from the spec: the observable failure of one call to the AI
backend — an error value (timeout, malformed response, auth failure) or a
response that is missing a requested bucket. -/
def backendFails (b : AnalyzerBackend) (t : String) (r : ℚ) (bs : List Bucket) : Prop :=
  (∃ e, b t r bs = Except.error e) ∨
  (∃ resp, b t r bs = Except.ok resp ∧ collectResponse resp bs = none)

/-- C3.  A failing AI backend never surfaces an error from the Sentiment
Scorer: the result is exactly the heuristic fallback, it still carries one
entry per requested bucket in order, and every score lies in the closed
interval from -1 to 1. -/
theorem scorer_absorbs_backend_failure
    (b : AnalyzerBackend) (t : String) (r : ℚ) (bs : List Bucket)
    (h : backendFails b t r bs) :
    score (some b) t r bs = fallbackScore t r bs ∧
    (score (some b) t r bs).map ScoreEntry.bucket = bs ∧
    (∀ e ∈ score (some b) t r bs, -1 ≤ e.score ∧ e.score ≤ 1) := by
  refine ⟨?_, score_map_bucket _ _ _ _, score_bounds _ _ _ _⟩
  rcases h with ⟨e, he⟩ | ⟨resp, hok, hc⟩
  · simp [score, he]
  · simp [score, hok, hc]

/-- Witness for C3: a backend that always times out, on a concrete drink
review. -/
theorem scorer_absorbs_backend_failure_witness :
    backendFails (fun _ _ _ => Except.error BackendError.timeout)
      "The latte was amazing" 5 [Bucket.drink] ∧
    (score (some (fun _ _ _ => Except.error BackendError.timeout))
        "The latte was amazing" 5 [Bucket.drink] =
      fallbackScore "The latte was amazing" 5 [Bucket.drink] ∧
    (score (some (fun _ _ _ => Except.error BackendError.timeout))
        "The latte was amazing" 5 [Bucket.drink]).map ScoreEntry.bucket = [Bucket.drink] ∧
    (∀ e ∈ score (some (fun _ _ _ => Except.error BackendError.timeout))
        "The latte was amazing" 5 [Bucket.drink], -1 ≤ e.score ∧ e.score ≤ 1)) :=
  ⟨Or.inl ⟨BackendError.timeout, rfl⟩,
   scorer_absorbs_backend_failure _ _ _ _ (Or.inl ⟨BackendError.timeout, rfl⟩)⟩

/-- C4.  Bucket-classifier gating: empty or whitespace-only text classifies
to the empty bucket set; ingestion preserves the no-orphan-bucket invariant
(every persisted score has a bucket positively identified by the classifier
on the text of its review); and under that invariant a review whose text
classifies to the empty set has no sentiment score at all. -/
theorem bucket_gating_invariant :
    (∀ t : String, t.data.all Char.isWhitespace = true → classify t = []) ∧
    (∀ (a : Option AnalyzerBackend) (s : Store) (p : ReviewPayload),
      (∀ sc ∈ s.scores, ∃ r ∈ s.reviews, r.id = sc.reviewId ∧ sc.bucket ∈ classify r.content) →
      ∀ sc ∈ (ingest a s p).1.scores,
        ∃ r ∈ (ingest a s p).1.reviews, r.id = sc.reviewId ∧ sc.bucket ∈ classify r.content) ∧
    (∀ s : Store,
      (∀ sc ∈ s.scores, ∃ r ∈ s.reviews, r.id = sc.reviewId ∧ sc.bucket ∈ classify r.content) →
      s.reviews.Pairwise (fun x y => x.id ≠ y.id) →
      ∀ r ∈ s.reviews, classify r.content = [] →
      ∀ sc ∈ s.scores, sc.reviewId ≠ r.id) := by
  refine ⟨fun t hws => classify_whitespace hws, ?_, ?_⟩
  · intro a s p hno sc hsc
    cases hl : lookupExisting s p with
    | some r =>
      rw [ingest_of_lookup_some hl] at hsc ⊢
      exact hno sc hsc
    | none =>
      have h1 : ingest a s p = ingestCreate a s p := by simp [ingest, hl]
      rw [h1, ingestCreate_scores] at hsc
      rw [h1, ingestCreate_reviews]
      rcases List.mem_append.mp hsc with hsc | hsc
      · obtain ⟨e, he, rfl⟩ := List.mem_map.mp hsc
        refine ⟨{ id := s.nextReviewId,
                  guestId := (resolveGuest s.guests s.nextGuestId p).2.2,
                  platform := p.platform, platformReviewId := p.platformReviewId,
                  rating := p.rating, content := p.text, reviewedAt := p.reviewedAt },
                List.mem_cons_self _ _, rfl, ?_⟩
        split at he
        · simp at he
        · rw [← score_map_bucket a p.text p.rating (classify p.text)]
          exact List.mem_map_of_mem _ he
      · obtain ⟨r, hr, h2, h3⟩ := hno sc hsc
        exact ⟨r, List.mem_cons_of_mem _ hr, h2, h3⟩
  · intro s hno hpw r hr hcl sc hsc heq
    obtain ⟨r2, hr2, hid2, hbk2⟩ := hno sc hsc
    by_cases hrr : r2 = r
    · subst hrr
      rw [hcl] at hbk2
      simp at hbk2
    · have hne := List.Pairwise.forall (fun {x y} h => Ne.symm h) hpw hr2 hr hrr
      exact hne (hid2.trans heq)

/-- Witness for C4: whitespace text classifies to nothing, and in a concrete
store with one scored drink review and one review with unclassifiable text,
no score may reference the latter review. -/
theorem bucket_gating_witness :
    ("  ".data.all Char.isWhitespace = true ∧ classify "  " = []) ∧
    (let r0 : Review :=
      { id := 0, guestId := 0, platform := Platform.yelp, platformReviewId := none,
        rating := 5, content := "great coffee", reviewedAt := 1 };
    let r1 : Review :=
      { id := 1, guestId := 0, platform := Platform.google, platformReviewId := none,
        rating := 2, content := "zzz", reviewedAt := 2 };
    let st : Store :=
      { guests := [], reviews := [r0, r1],
        scores := [{ reviewId := 0, bucket := Bucket.drink, score := 1/2, summary := none }],
        nextGuestId := 0, nextReviewId := 2 };
    (∀ sc ∈ st.scores, ∃ r ∈ st.reviews, r.id = sc.reviewId ∧ sc.bucket ∈ classify r.content) ∧
    st.reviews.Pairwise (fun x y => x.id ≠ y.id) ∧
    r1 ∈ st.reviews ∧ classify r1.content = [] ∧
    ∀ sc ∈ st.scores, sc.reviewId ≠ r1.id) := by
  refine ⟨⟨by decide, bucket_gating_invariant.1 "  " (by decide)⟩, ?_⟩
  refine ⟨by decide, by decide, by decide, by decide, ?_⟩
  exact bucket_gating_invariant.2.2 _ (by decide) (by decide) _ (by decide) (by decide)

/-- C7.  For a fixed review text, the heuristic fallback score is monotone
non-decreasing in the star rating: the rating maps linearly onto the interval
from -1 to 1, is averaged with the keyword polarity with equal weight (or
stands alone when no polarity keyword matches), and clamping preserves
order.  The per-bucket entries of the fallback result inherit this bound. -/
theorem fallback_monotone_in_rating
    (t : String) (bs : List Bucket) (r1 r2 : ℚ) (h : r1 ≤ r2) :
    fallbackBucketScore t r1 ≤ fallbackBucketScore t r2 ∧
    ∀ e1 ∈ fallbackScore t r1 bs, ∀ e2 ∈ fallbackScore t r2 bs,
      e1.bucket = e2.bucket → e1.score ≤ e2.score := by
  have hsig : ratingSignal r1 ≤ ratingSignal r2 := by
    unfold ratingSignal
    have := mul_le_mul_of_nonneg_right h (by norm_num : (0 : ℚ) ≤ 2 / 5)
    linarith
  have hmain : fallbackBucketScore t r1 ≤ fallbackBucketScore t r2 := by
    unfold fallbackBucketScore
    cases textPolarity t with
    | none => exact clamp_mono hsig
    | some pol => exact clamp_mono (by linarith)
  refine ⟨hmain, ?_⟩
  intro e1 he1 e2 he2 _
  simp only [fallbackScore, List.mem_map] at he1 he2
  obtain ⟨bk1, _, rfl⟩ := he1
  obtain ⟨bk2, _, rfl⟩ := he2
  exact hmain

/-- Witness for C7: raising the rating from 1 to 5 on a fixed text. -/
theorem fallback_monotone_witness :
    (1 : ℚ) ≤ 5 ∧
    (fallbackBucketScore "just fine" 1 ≤ fallbackBucketScore "just fine" 5 ∧
      ∀ e1 ∈ fallbackScore "just fine" 1 [Bucket.food],
        ∀ e2 ∈ fallbackScore "just fine" 5 [Bucket.food],
          e1.bucket = e2.bucket → e1.score ≤ e2.score) :=
  ⟨by norm_num, fallback_monotone_in_rating "just fine" [Bucket.food] 1 5 (by norm_num)⟩

/-- The order category used by orders and menu items. -/
inductive Category where
  | food
  | drink
  deriving DecidableEq

/-- One order line of a guest, from the data model of the spec (timestamps
are abstract day numbers). -/
structure OrderRec where
  itemName : String
  category : Category
  price : ℚ
  quantity : Nat
  orderedAt : Nat
  deriving DecidableEq

/-- One scored review of a guest as consumed by the pulse aggregator: rating,
review day and the bucket scores attached to the review. -/
structure ScoredReview where
  rating : ℚ
  reviewedAt : Nat
  scores : List (Bucket × ℚ)
  deriving DecidableEq

/-- One row of the per-bucket sentiment summary of a pulse profile. -/
structure SummaryEntry where
  bucket : Bucket
  avgScore : ℚ
  reviewCount : Nat
  deriving DecidableEq

/-- The per-guest pulse profile, from section 4.4 of the spec. -/
structure PulseProfile where
  totalOrders : Nat
  totalSpend : ℚ
  favoriteItems : List String
  visitCount : Nat
  sentimentSummary : List SummaryEntry
  deriving DecidableEq

/-- From src/frontend/src/components/GuestPulseCard.js (OrderTimeline): the
displayed line total of one order, price times quantity. -/
def orderLineTotal (o : OrderRec) : ℚ := o.price * (o.quantity : ℚ)

/-- Modelled from the spec: the single pass accumulating order count and
total spend for the pulse profile of the Guest Pulse Aggregator, whose
backend code is absent from the repository sources. -/
def pulseTotals (orders : List OrderRec) : Nat × ℚ :=
  orders.foldl (fun acc o => (acc.1 + 1, acc.2 + o.price * (o.quantity : ℚ))) (0, 0)

/-- Per-item order statistics used to rank favourite items. -/
structure FavStat where
  itemName : String
  orderCount : Nat
  totalQty : Nat
  lastAt : Nat
  deriving DecidableEq

/-- Modelled from the spec: the order statistics of one item name for one
guest. -/
def favStatFor (orders : List OrderRec) (name : String) : FavStat :=
  let mine := orders.filter (fun o => decide (o.itemName = name))
  { itemName := name, orderCount := mine.length,
    totalQty := (mine.map (fun o => o.quantity)).sum,
    lastAt := (mine.map (fun o => o.orderedAt)).foldr max 0 }

/-- Modelled from the spec: ranking order for favourite items — order count
descending, then total quantity descending, ties broken by most recent
order. -/
def favRel (x y : FavStat) : Prop :=
  y.orderCount < x.orderCount ∨
    (x.orderCount = y.orderCount ∧
      (y.totalQty < x.totalQty ∨ (x.totalQty = y.totalQty ∧ y.lastAt ≤ x.lastAt)))

instance : DecidableRel favRel := fun x y => by
  unfold favRel
  infer_instance

/-- Modelled from the spec: the favourite items of a guest, the top three
item names by the favourite ranking. -/
def favoriteItems (orders : List OrderRec) : List String :=
  (((List.insertionSort favRel
      (((orders.map (fun o => o.itemName)).dedup).map (favStatFor orders)))).take 3).map
    (fun st => st.itemName)

/-- Modelled from the spec: visit count, the number of distinct calendar days
across the orders and reviews of the guest. -/
def visitCount (orders : List OrderRec) (reviews : List ScoredReview) : Nat :=
  ((orders.map (fun o => o.orderedAt)) ++ (reviews.map (fun rv => rv.reviewedAt))).dedup.length

/-- Modelled from the spec: all scores of one bucket across the reviews of a
guest. -/
def bucketScores (reviews : List ScoredReview) (bk : Bucket) : List ℚ :=
  (reviews.map (fun rv => (rv.scores.filter (fun pr => decide (pr.1 = bk))).map
    (fun pr => pr.2))).flatten

/-- Modelled from the spec: the per-bucket sentiment summary — for each
bucket present in any of the reviews of the guest, the unweighted mean score
and the number of contributing scores; absent buckets are omitted, not
zero-filled. -/
def sentimentSummary (reviews : List ScoredReview) : List SummaryEntry :=
  [Bucket.food, Bucket.drink, Bucket.ambiance].filterMap (fun bk =>
    let xs := bucketScores reviews bk
    if xs.isEmpty then none
    else some { bucket := bk, avgScore := xs.sum / (xs.length : ℚ),
                reviewCount := xs.length })

/-- Modelled from the spec: the Guest Pulse Aggregator (section 4.4), whose
backend code is absent from the repository sources.  A total function of the
orders and scored reviews of the guest — it never raises. -/
def pulse (orders : List OrderRec) (reviews : List ScoredReview) : PulseProfile :=
  { totalOrders := (pulseTotals orders).1
    totalSpend := (pulseTotals orders).2
    favoriteItems := favoriteItems orders
    visitCount := visitCount orders reviews
    sentimentSummary := sentimentSummary reviews }

theorem pulseTotals_go (orders : List OrderRec) :
    ∀ (n : Nat) (q : ℚ),
      orders.foldl (fun acc o => (acc.1 + 1, acc.2 + o.price * (o.quantity : ℚ))) (n, q) =
        (n + orders.length, q + (orders.map orderLineTotal).sum) := by
  induction orders with
  | nil => intro n q; simp
  | cons o rest ih =>
    intro n q
    rw [List.foldl_cons, ih]
    simp [orderLineTotal]
    constructor
    · omega
    · ring

/-- A concrete pair of orders from the testable-properties section of the
spec: price 5 quantity 2 and price 3 quantity 1. -/
def exampleOrders : List OrderRec :=
  [{ itemName := "Latte", category := Category.drink, price := 5, quantity := 2, orderedAt := 1 },
   { itemName := "Scone", category := Category.food, price := 3, quantity := 1, orderedAt := 2 }]

/-- C5.  The pulse profile counts every order and sums price times quantity
over all orders of the guest (the same line total the order timeline of the
frontend displays per order); on the concrete orders of the spec, price 5
quantity 2 and price 3 quantity 1, the total spend is 13 and the order count
is 2. -/
theorem pulse_totals_spec :
    (∀ (orders : List OrderRec) (reviews : List ScoredReview),
      (pulse orders reviews).totalOrders = orders.length ∧
      (pulse orders reviews).totalSpend = (orders.map orderLineTotal).sum) ∧
    (pulse exampleOrders []).totalSpend = 13 ∧
    (pulse exampleOrders []).totalOrders = 2 := by
  have hgen : ∀ (orders : List OrderRec) (reviews : List ScoredReview),
      (pulse orders reviews).totalOrders = orders.length ∧
      (pulse orders reviews).totalSpend = (orders.map orderLineTotal).sum := by
    intro orders reviews
    have h := pulseTotals_go orders 0 0
    constructor
    · show (pulseTotals orders).1 = orders.length
      rw [pulseTotals, h]
      simp
    · show (pulseTotals orders).2 = (orders.map orderLineTotal).sum
      rw [pulseTotals, h]
      simp
  refine ⟨hgen, ?_, ?_⟩
  · rw [(hgen exampleOrders []).2]
    simp [exampleOrders, orderLineTotal]
    norm_num
  · rw [(hgen exampleOrders []).1]
    rfl

/-- C8.  A guest with no orders and no reviews gets a pulse profile (the
aggregator is a total function, it never raises) with zero orders, zero
spend, no favourites, zero visits and an empty sentiment summary; and a
bucket contributed by none of the reviews of a guest never appears in the
sentiment summary — absent buckets are omitted, not zero-filled. -/
theorem pulse_empty_guest :
    pulse [] [] = { totalOrders := 0, totalSpend := 0, favoriteItems := [],
                    visitCount := 0, sentimentSummary := [] } ∧
    (∀ (orders : List OrderRec) (reviews : List ScoredReview) (bk : Bucket),
      (∀ rv ∈ reviews, ∀ pr ∈ rv.scores, pr.1 ≠ bk) →
      ∀ e ∈ (pulse orders reviews).sentimentSummary, e.bucket ≠ bk) := by
  constructor
  · rfl
  · intro orders reviews bk habs e he heq
    have he2 : e ∈ sentimentSummary reviews := he
    rw [sentimentSummary, List.mem_filterMap] at he2
    obtain ⟨bk2, _, hfe⟩ := he2
    dsimp only at hfe
    by_cases hemp : (bucketScores reviews bk2).isEmpty
    · rw [if_pos hemp] at hfe
      cases hfe
    · rw [if_neg hemp] at hfe
      have hb2 : e.bucket = bk2 := by cases hfe; rfl
      rw [heq] at hb2
      rw [← hb2] at hemp
      cases hbs : bucketScores reviews bk with
      | nil => rw [hbs] at hemp; simp at hemp
      | cons q qs =>
        have hqmem : q ∈ bucketScores reviews bk := by
          rw [hbs]; exact List.mem_cons_self _ _
        rw [bucketScores, List.mem_flatten] at hqmem
        obtain ⟨l, hl, hql⟩ := hqmem
        rw [List.mem_map] at hl
        obtain ⟨rv, hrv, rfl⟩ := hl
        rw [List.mem_map] at hql
        obtain ⟨pr, hpr, rfl⟩ := hql
        rw [List.mem_filter] at hpr
        exact absurd (of_decide_eq_true hpr.2) (habs rv hrv pr hpr.1)

/-- Witness for C8: the omission clause applied to one review that scores
only the food bucket, asked about the drink bucket. -/
theorem pulse_empty_guest_witness :
    (∀ rv ∈ [({ rating := 5, reviewedAt := 1,
                scores := [(Bucket.food, 1/2)] } : ScoredReview)],
      ∀ pr ∈ rv.scores, pr.1 ≠ Bucket.drink) ∧
    (∀ e ∈ (pulse []
        [{ rating := 5, reviewedAt := 1, scores := [(Bucket.food, 1/2)] }]).sentimentSummary,
      e.bucket ≠ Bucket.drink) :=
  ⟨by decide,
   pulse_empty_guest.2 []
     [{ rating := 5, reviewedAt := 1, scores := [(Bucket.food, 1/2)] }]
     Bucket.drink (by decide)⟩

/-- Per-item aggregate used by the Product Performance Ranker: order count,
average sentiment of the matching bucket (none when the item has no review
signal) and the number of contributing scores. -/
structure ItemStat where
  itemName : String
  category : Category
  orderCount : Nat
  avgSentiment : Option ℚ
  reviewCount : Nat
  deriving DecidableEq

/-- Sentiment key used for tie-breaking; an item without signal ranks with a
neutral key of zero. -/
def sentKey (i : ItemStat) : ℚ := i.avgSentiment.getD 0

/-- Modelled from the spec: top-performer selection (section 4.5) — average
sentiment at least 0.3, or no review signal but an order count at least the
high-volume cutoff, which the spec leaves unspecified and is therefore a
parameter. -/
def topCond (hi : Nat) (i : ItemStat) : Bool :=
  match i.avgSentiment with
  | some q => decide ((0.3 : ℚ) ≤ q)
  | none => decide (hi ≤ i.orderCount)

/-- Modelled from the spec: at-risk selection (section 4.5) — average
sentiment at most -0.3; items without signal are never at risk. -/
def riskCond (i : ItemStat) : Bool :=
  match i.avgSentiment with
  | some q => decide (q ≤ (-0.3 : ℚ))
  | none => false

/-- Modelled from the spec: the top-performer ordering — order count
descending, then average sentiment descending. -/
def topRel (x y : ItemStat) : Prop :=
  y.orderCount < x.orderCount ∨ (x.orderCount = y.orderCount ∧ sentKey y ≤ sentKey x)

/-- Modelled from the spec: the at-risk ordering — order count descending,
then average sentiment ascending. -/
def riskRel (x y : ItemStat) : Prop :=
  y.orderCount < x.orderCount ∨ (x.orderCount = y.orderCount ∧ sentKey x ≤ sentKey y)

instance : DecidableRel topRel := fun x y => by
  unfold topRel
  infer_instance

instance : DecidableRel riskRel := fun x y => by
  unfold riskRel
  infer_instance

instance : IsTotal ItemStat topRel := by
  constructor
  intro x y
  rcases Nat.lt_trichotomy y.orderCount x.orderCount with h | h | h
  · exact Or.inl (Or.inl h)
  · rcases le_total (sentKey y) (sentKey x) with hk | hk
    · exact Or.inl (Or.inr ⟨h.symm, hk⟩)
    · exact Or.inr (Or.inr ⟨h, hk⟩)
  · exact Or.inr (Or.inl h)

instance : IsTrans ItemStat topRel := by
  constructor
  intro x y z hxy hyz
  rcases hxy with h1 | ⟨h1, h2⟩ <;> rcases hyz with h3 | ⟨h3, h4⟩
  · exact Or.inl (by omega)
  · exact Or.inl (by omega)
  · exact Or.inl (by omega)
  · exact Or.inr ⟨by omega, le_trans h4 h2⟩

instance : IsTotal ItemStat riskRel := by
  constructor
  intro x y
  rcases Nat.lt_trichotomy y.orderCount x.orderCount with h | h | h
  · exact Or.inl (Or.inl h)
  · rcases le_total (sentKey x) (sentKey y) with hk | hk
    · exact Or.inl (Or.inr ⟨h.symm, hk⟩)
    · exact Or.inr (Or.inr ⟨h, hk⟩)
  · exact Or.inr (Or.inl h)

instance : IsTrans ItemStat riskRel := by
  constructor
  intro x y z hxy hyz
  rcases hxy with h1 | ⟨h1, h2⟩ <;> rcases hyz with h3 | ⟨h3, h4⟩
  · exact Or.inl (by omega)
  · exact Or.inl (by omega)
  · exact Or.inl (by omega)
  · exact Or.inr ⟨by omega, le_trans h2 h4⟩

/-- Modelled from the spec: the Product Performance Ranker (section 4.5),
whose backend code is absent from the repository sources.  Filters the item
aggregates into top performers and at-risk items and sorts each list by its
ordering. -/
def rank (hi : Nat) (items : List ItemStat) : List ItemStat × List ItemStat :=
  (List.insertionSort topRel (items.filter (topCond hi)),
   List.insertionSort riskRel (items.filter riskCond))

theorem topCond_iff (hi : Nat) (i : ItemStat) :
    topCond hi i = true ↔
      ((∃ q, i.avgSentiment = some q ∧ (0.3 : ℚ) ≤ q) ∨
        (i.avgSentiment = none ∧ hi ≤ i.orderCount)) := by
  cases h : i.avgSentiment with
  | none => simp [topCond, h]
  | some q => simp [topCond, h]

theorem riskCond_iff (i : ItemStat) :
    riskCond i = true ↔ (∃ q, i.avgSentiment = some q ∧ q ≤ (-0.3 : ℚ)) := by
  cases h : i.avgSentiment with
  | none => simp [riskCond, h]
  | some q => simp [riskCond, h]

/-- C6.  The ranker returns as top performers exactly the items with average
sentiment at least 0.3 together with the no-signal items above the volume
cutoff, and as at-risk exactly the items with average sentiment at most
-0.3; both lists are sorted by order count descending with the sentiment
tie-break (descending among top performers, ascending among at-risk), so any
two items with equal order count are ordered by their sentiment key. -/
theorem rank_partition_and_order (hi : Nat) (items : List ItemStat) :
    (∀ i, i ∈ (rank hi items).1 ↔ i ∈ items ∧
      ((∃ q, i.avgSentiment = some q ∧ (0.3 : ℚ) ≤ q) ∨
        (i.avgSentiment = none ∧ hi ≤ i.orderCount))) ∧
    (∀ i, i ∈ (rank hi items).2 ↔ i ∈ items ∧
      (∃ q, i.avgSentiment = some q ∧ q ≤ (-0.3 : ℚ))) ∧
    (rank hi items).1.Sorted topRel ∧
    (rank hi items).2.Sorted riskRel ∧
    (rank hi items).1.Pairwise (fun x y => y.orderCount ≤ x.orderCount) ∧
    (rank hi items).2.Pairwise (fun x y => y.orderCount ≤ x.orderCount) ∧
    (rank hi items).1.Pairwise
      (fun x y => x.orderCount = y.orderCount → sentKey y ≤ sentKey x) ∧
    (rank hi items).2.Pairwise
      (fun x y => x.orderCount = y.orderCount → sentKey x ≤ sentKey y) := by
  have htop : (rank hi items).1.Sorted topRel :=
    List.sorted_insertionSort topRel (items.filter (topCond hi))
  have hrisk : (rank hi items).2.Sorted riskRel :=
    List.sorted_insertionSort riskRel (items.filter riskCond)
  refine ⟨?_, ?_, htop, hrisk, ?_, ?_, ?_, ?_⟩
  · intro i
    show i ∈ List.insertionSort topRel (items.filter (topCond hi)) ↔ _
    rw [List.mem_insertionSort, List.mem_filter, topCond_iff]
  · intro i
    show i ∈ List.insertionSort riskRel (items.filter riskCond) ↔ _
    rw [List.mem_insertionSort, List.mem_filter, riskCond_iff]
  · refine htop.imp ?_
    intro x y h
    rcases h with h | ⟨h, _⟩
    · omega
    · omega
  · refine hrisk.imp ?_
    intro x y h
    rcases h with h | ⟨h, _⟩
    · omega
    · omega
  · refine htop.imp ?_
    intro x y h heq
    rcases h with h | ⟨_, h2⟩
    · omega
    · exact h2
  · refine hrisk.imp ?_
    intro x y h heq
    rcases h with h | ⟨_, h2⟩
    · omega
    · exact h2

/-- A concrete item list used to instantiate the ranker theorem. -/
def exampleItems : List ItemStat :=
  [{ itemName := "Latte", category := Category.drink, orderCount := 9,
     avgSentiment := some (1/2), reviewCount := 4 },
   { itemName := "Burger", category := Category.food, orderCount := 9,
     avgSentiment := some (9/10), reviewCount := 2 },
   { itemName := "Tea", category := Category.drink, orderCount := 3,
     avgSentiment := some (-1/2), reviewCount := 1 },
   { itemName := "Scone", category := Category.food, orderCount := 12,
     avgSentiment := none, reviewCount := 0 }]

/-- Witness for C6: the membership characterisation applied to a concrete
item of a concrete catalogue. -/
theorem rank_partition_witness :
    ({ itemName := "Latte", category := Category.drink, orderCount := 9,
       avgSentiment := some (1/2), reviewCount := 4 } : ItemStat) ∈ (rank 10 exampleItems).1 ↔
      ({ itemName := "Latte", category := Category.drink, orderCount := 9,
         avgSentiment := some (1/2), reviewCount := 4 } : ItemStat) ∈ exampleItems ∧
      ((∃ q, (some (1/2 : ℚ)) = some q ∧ (0.3 : ℚ) ≤ q) ∨
        ((some (1/2 : ℚ)) = none ∧ 10 ≤ 9)) :=
  (rank_partition_and_order 10 exampleItems).1 _

/-- Witness for C5: the totals characterisation applied to the concrete
example orders. -/
theorem pulse_totals_witness :
    (pulse exampleOrders []).totalOrders = exampleOrders.length ∧
    (pulse exampleOrders []).totalSpend = (exampleOrders.map orderLineTotal).sum :=
  pulse_totals_spec.1 exampleOrders []

/-- From src/frontend/src/components/SentimentBadge.js: the css class of a
sentiment badge, chosen by strict comparisons against the 0.2 cut-off. -/
def sentimentBadgeKind (s : ℚ) : String :=
  if (0.2 : ℚ) < s then "positive"
  else if s < (-0.2 : ℚ) then "negative"
  else "neutral"

/-- From src/unnamed/part_001 (ProductPulse, getSentimentClass): the css
class of a product-pulse sentiment indicator, chosen by non-strict
comparisons against the 0.3 cut-off, with a separate class for missing
data. -/
def productPulseKind (s : Option ℚ) : String :=
  match s with
  | none => "none"
  | some q =>
    if (0.3 : ℚ) ≤ q then "positive"
    else if q ≤ (-0.3 : ℚ) then "negative"
    else "neutral"

/-- C9.  The sentiment badge classifies a score as positive exactly when it
exceeds 0.2 and as negative exactly when it is below -0.2, neutral otherwise;
the cut-offs are strict, so exactly 0.2 and exactly -0.2 render neutral, and
the threshold differs from the 0.3 boundary of the product-pulse class: 0.25
is positive for the badge yet neutral for the product pulse. -/
theorem sentiment_badge_thresholds :
    (∀ s : ℚ,
      (sentimentBadgeKind s = "positive" ↔ (0.2 : ℚ) < s) ∧
      (sentimentBadgeKind s = "negative" ↔ s < (-0.2 : ℚ)) ∧
      (sentimentBadgeKind s = "neutral" ↔ ((-0.2 : ℚ) ≤ s ∧ s ≤ (0.2 : ℚ)))) ∧
    sentimentBadgeKind (0.2 : ℚ) = "neutral" ∧
    sentimentBadgeKind (-0.2 : ℚ) = "neutral" ∧
    sentimentBadgeKind (0.25 : ℚ) = "positive" ∧
    productPulseKind (some (0.25 : ℚ)) = "neutral" ∧
    topCond 10 { itemName := "Latte", category := Category.drink, orderCount := 9,
                 avgSentiment := some (0.25 : ℚ), reviewCount := 1 } = false ∧
    riskCond { itemName := "Latte", category := Category.drink, orderCount := 9,
               avgSentiment := some (0.25 : ℚ), reviewCount := 1 } = false := by
  refine ⟨?_, ?_, ?_, ?_, ?_, ?_, ?_⟩
  · intro s
    unfold sentimentBadgeKind
    split_ifs with h1 h2
    · exact ⟨⟨fun _ => h1, fun _ => rfl⟩,
        ⟨fun h => absurd h (by decide), fun h2 => (by linarith : False).elim⟩,
        ⟨fun h => absurd h (by decide), fun h2 => (by linarith [h2.2] : False).elim⟩⟩
    · exact ⟨⟨fun h => absurd h (by decide), fun hp => (by linarith : False).elim⟩,
        ⟨fun _ => h2, fun _ => rfl⟩,
        ⟨fun h => absurd h (by decide), fun hn => (by linarith [hn.1] : False).elim⟩⟩
    · exact ⟨⟨fun h => absurd h (by decide), fun hp => absurd hp h1⟩,
        ⟨fun h => absurd h (by decide), fun hn => absurd hn h2⟩,
        ⟨fun _ => ⟨by linarith [not_lt.mp h2], by linarith [not_lt.mp h1]⟩, fun _ => rfl⟩⟩
  · norm_num [sentimentBadgeKind]
  · norm_num [sentimentBadgeKind]
  · norm_num [sentimentBadgeKind]
  · norm_num [productPulseKind]
  · norm_num [topCond]
  · norm_num [riskCond]

/-- Witness for C9: the positive-class characterisation applied at the
concrete score one half. -/
theorem sentiment_badge_witness :
    sentimentBadgeKind (1 / 2) = "positive" ↔ (0.2 : ℚ) < 1 / 2 :=
  (sentiment_badge_thresholds.1 (1 / 2)).1

/-- The kind of one glyph in the five-star row. -/
inductive StarKind where
  | full
  | half
  | empty
  deriving DecidableEq

/-- From src/frontend/src/app/reviews/page.js (renderStars): the glyph at
1-based position i — full when i is at most the floor of the rating, half
when i equals the ceiling of the rating and the fractional part is at least
one half, empty otherwise. -/
def starAt (r : ℚ) (i : ℕ) : StarKind :=
  if (i : ℤ) ≤ ⌊r⌋ then StarKind.full
  else if (i : ℤ) = ⌈r⌉ ∧ (1 / 2 : ℚ) ≤ Int.fract r then StarKind.half
  else StarKind.empty

/-- From src/frontend/src/app/reviews/page.js (renderStars): the five-glyph
row produced by the loop over positions 1 to 5. -/
def renderStarsList (r : ℚ) : List StarKind :=
  (List.range 5).map (fun i => starAt r (i + 1))

/-- From src/frontend/src/components/GuestPulseCard.js lines 98 to 103
(string renderStars): the number of full stars, the floor of the rating. -/
def starFull (r : ℚ) : ℤ := ⌊r⌋

/-- From src/frontend/src/components/GuestPulseCard.js lines 98 to 103: the
half-star flag, set when the fractional part is at least one half. -/
def starHalf (r : ℚ) : Bool := decide ((1 / 2 : ℚ) ≤ Int.fract r)

/-- From src/frontend/src/components/GuestPulseCard.js lines 98 to 103: the
repeat count of empty stars, five minus full minus half, as written in the
source (an integer that could in principle go negative). -/
def starEmptyZ (r : ℚ) : ℤ := 5 - starFull r - (if starHalf r then 1 else 0)

/-- From src/frontend/src/components/GuestPulseCard.js lines 98 to 103: the
rendered character string — full stars, an optional half glyph, then empty
stars. -/
def renderStarsChars (r : ℚ) : List Char :=
  List.replicate (starFull r).toNat '★' ++ (if starHalf r then ['½'] else []) ++
    List.replicate (starEmptyZ r).toNat '☆'

theorem ceil_eq_floor_succ_of_fract_pos {r : ℚ} (h : 0 < Int.fract r) :
    ⌈r⌉ = ⌊r⌋ + 1 := by
  have hlt : Int.fract r < 1 := Int.fract_lt_one r
  have hadd : (⌊r⌋ : ℚ) + Int.fract r = r := Int.floor_add_fract r
  have h4 : ⌈r⌉ ≤ ⌊r⌋ + 1 := by
    rw [Int.ceil_le]
    push_cast
    linarith
  have h3 : ⌊r⌋ < ⌈r⌉ := by
    have h2 : (⌊r⌋ : ℚ) < r := by linarith
    have hcr : r ≤ (⌈r⌉ : ℚ) := Int.le_ceil r
    exact_mod_cast lt_of_lt_of_le h2 hcr
  omega

/-- C10.  For any rating between 0 and 5, the loop-based renderStars of the
reviews page renders exactly five glyphs — floor many full stars, one half
star exactly when the fractional part is at least one half, the rest empty —
and the string-based renderStars of the guest pulse card renders the same
shape with a non-negative empty-star repeat count, so its repeat calls are
safe. -/
theorem render_stars_spec (r : ℚ) (h0 : 0 ≤ r) (h5 : r ≤ 5) :
    (renderStarsList r).length = 5 ∧
    renderStarsList r =
      List.replicate (starFull r).toNat StarKind.full ++
        (if starHalf r then [StarKind.half] else []) ++
        List.replicate (starEmptyZ r).toNat StarKind.empty ∧
    0 ≤ starEmptyZ r ∧
    (renderStarsChars r).length = 5 := by
  have hf0 : 0 ≤ ⌊r⌋ := Int.floor_nonneg.mpr h0
  have hq : (⌊r⌋ : ℚ) ≤ 5 := le_trans (Int.floor_le r) h5
  have hf5 : ⌊r⌋ ≤ 5 := by exact_mod_cast hq
  have hadd : (⌊r⌋ : ℚ) + Int.fract r = r := Int.floor_add_fract r
  have hrg : List.range 5 = [0, 1, 2, 3, 4] := rfl
  by_cases hh : (1 / 2 : ℚ) ≤ Int.fract r
  · have hpos : (0 : ℚ) < Int.fract r := lt_of_lt_of_le (by norm_num) hh
    have hceil : ⌈r⌉ = ⌊r⌋ + 1 := ceil_eq_floor_succ_of_fract_pos hpos
    have hhb : starHalf r = true := decide_eq_true hh
    have hf4 : ⌊r⌋ ≤ 4 := by
      by_contra hcon
      have hf5e : (⌊r⌋ : ℚ) = 5 := by exact_mod_cast (by omega : ⌊r⌋ = (5 : ℤ))
      linarith
    have hempty : 0 ≤ starEmptyZ r := by
      unfold starEmptyZ starFull
      simp only [hhb, if_true]
      omega
    refine ⟨by simp [renderStarsList], ?_, hempty, ?_⟩
    · have hcases : ⌊r⌋ = 0 ∨ ⌊r⌋ = 1 ∨ ⌊r⌋ = 2 ∨ ⌊r⌋ = 3 ∨ ⌊r⌋ = 4 := by omega
      rcases hcases with hf | hf | hf | hf | hf <;>
        norm_num [renderStarsList, hrg, starAt, starFull, starEmptyZ, hf, hceil, hh, hhb,
          List.replicate]
    · rw [renderStarsChars]
      simp only [hhb, if_true, List.length_append, List.length_replicate, List.length_cons,
        List.length_nil]
      unfold starEmptyZ starFull
      simp only [hhb, if_true]
      omega
  · have hhb : starHalf r = false := decide_eq_false hh
    have hempty : 0 ≤ starEmptyZ r := by
      unfold starEmptyZ starFull
      simp [hhb]
      omega
    refine ⟨by simp [renderStarsList], ?_, hempty, ?_⟩
    · have hcases : ⌊r⌋ = 0 ∨ ⌊r⌋ = 1 ∨ ⌊r⌋ = 2 ∨ ⌊r⌋ = 3 ∨ ⌊r⌋ = 4 ∨ ⌊r⌋ = 5 := by omega
      rcases hcases with hf | hf | hf | hf | hf | hf <;>
        norm_num [renderStarsList, hrg, starAt, starFull, starEmptyZ, hf, hh, hhb,
          List.replicate]
    · rw [renderStarsChars]
      simp [hhb, starEmptyZ, starFull]
      omega

/-- Witness for C10: the star-rendering theorem at the concrete rating
seven halves. -/
theorem render_stars_witness :
    ((0 : ℚ) ≤ 7 / 2 ∧ (7 / 2 : ℚ) ≤ 5) ∧
    ((renderStarsList (7 / 2)).length = 5 ∧
      renderStarsList (7 / 2) =
        List.replicate (starFull (7 / 2)).toNat StarKind.full ++
          (if starHalf (7 / 2) then [StarKind.half] else []) ++
          List.replicate (starEmptyZ (7 / 2)).toNat StarKind.empty ∧
      0 ≤ starEmptyZ (7 / 2) ∧
      (renderStarsChars (7 / 2)).length = 5) :=
  ⟨⟨by norm_num, by norm_num⟩, render_stars_spec (7 / 2) (by norm_num) (by norm_num)⟩
